import Mathlib

/-!
Shallow embedding of the token-lifecycle core of the Frallan97/auth-service
repository (Go), for checking the natural-language specification against the
code.

Embedded source files:
* pkg/jwt (src/unnamed/part_003): access-token generation and validation,
  refresh-token generation, bcrypt hashing and comparison.
* internal/auth/service.go: CreateOrUpdateUser, GenerateTokens,
  RefreshAccessToken, RevokeRefreshToken.
* internal/handlers/handlers.go: GoogleLogin, GoogleCallback (completeLogin
  core), RefreshToken endpoint, Logout, GetPublicKey.

Modelling conventions:
* RSA key pairs are symbolic: a key pair is a natural number; the private and
  the public half of pair k are both represented by k.  A signature records
  which private key produced it; verification with public key k succeeds
  exactly on signatures produced by private key k.  This is the standard
  symbolic (Dolev-Yao) model of asymmetric signatures.
* bcrypt is symbolic: a hash is a (salt, password) pair, and comparison
  recomputes with the stored salt, succeeding exactly when the password
  matches.  One-way-ness is a meta-level property not needed by the claims.
* The relational store is a pair of in-memory lists (users, refresh tokens).
  Row ids are assigned from a counter.  SQL WHERE clauses become filters,
  single-row UPDATE becomes a map over the list.  Storage-level failures
  (connection loss, scan type mismatch) are below the granularity of the
  model; every modelled storage call is total.
* Wall-clock time is an explicit natural-number argument (NOW() in SQL,
  time.Now() in Go), randomness (crypto/rand, bcrypt salts) is an explicit
  argument, so every operation is a pure function of state and inputs.
-/

namespace AuthService

/-- Base64url alphabet used by encoding/base64 URLEncoding in Go. -/
def base64Alphabet : List Char :=
  "ABCDEFGHIJKLMNOPQRSTUVWXYZabcdefghijklmnopqrstuvwxyz0123456789-_".data

/-- Character for one 6-bit group. -/
def sextetChar (n : Nat) : Char :=
  base64Alphabet.getD n 'A'

/-- Index of a character in the base64url alphabet (decoder direction). -/
def sextetIndex (c : Char) : Nat :=
  (base64Alphabet.indexOf c)

/-- 6-bit groups of a byte list, as in RFC 4648 base64 (without padding
characters; padding is appended separately). Mirrors the grouping performed
by base64.URLEncoding.EncodeToString in Go. -/
def encodeGroups : List Nat → List Nat
  | [] => []
  | [a] => [a / 4, a % 4 * 16]
  | [a, b] => [a / 4, a % 4 * 16 + b / 16, b % 16 * 4]
  | a :: b :: c :: rest =>
      a / 4 :: (a % 4 * 16 + b / 16) :: (b % 16 * 4 + c / 64) :: c % 64 ::
        encodeGroups rest

/-- Inverse of encodeGroups on well-formed sextet lists. -/
def decodeGroups : List Nat → List Nat
  | s0 :: s1 :: s2 :: s3 :: rest =>
      (s0 * 4 + s1 / 16) :: (s1 % 16 * 16 + s2 / 4) :: (s2 % 4 * 64 + s3) ::
        decodeGroups rest
  | [s0, s1] => [s0 * 4 + s1 / 16]
  | [s0, s1, s2] => [s0 * 4 + s1 / 16, s1 % 16 * 16 + s2 / 4]
  | _ => []

/-- Number of padding characters emitted by base64 for an input of the given
byte length. -/
def padLen (n : Nat) : Nat :=
  if n % 3 = 1 then 2 else if n % 3 = 2 then 1 else 0

/-- base64.URLEncoding.EncodeToString from the Go standard library: 6-bit
groups mapped through the url-safe alphabet, then = padding. -/
def base64urlEncode (bytes : List Nat) : String :=
  String.mk ((encodeGroups bytes).map sextetChar ++
    List.replicate (padLen bytes.length) '=')

/-- Symbolic bcrypt hash: bcrypt.GenerateFromPassword output is determined by
the random salt and the password; the raw password can only be checked
against it by recomputation, which the model captures by storing both
components. The type is distinct from String: a stored hash is not a raw
token value. -/
structure BcryptHash where
  salt : Nat
  pw : String
deriving Repr, DecidableEq

namespace jwt

/-- JWT signing algorithms relevant to the validator: the RSA family accepted
by the keyfunc type check and everything else. -/
inductive Alg
  | RS256
  | RS384
  | RS512
  | HS256
  | noAlg
deriving Repr, DecidableEq

/-- The keyfunc in ValidateAccessToken accepts exactly the RSA methods. -/
def Alg.isRSA : Alg → Bool
  | .RS256 => true
  | .RS384 => true
  | .RS512 => true
  | _ => false

/-- Claims from pkg/jwt. The pkg/jwt snapshot under src (part_003) predates
the role migration; internal/auth/service.go passes user.Role into
GenerateAccessToken and internal/middleware/auth.go reads claims.Role, so
the current Claims structure carries a role claim. Modelled from the spec:
the role claim (AccessTokenClaims in section 3) missing from the snapshot. -/
structure Claims where
  userID : Nat
  email : String
  name : String
  role : String
  issuer : String
  issuedAt : Nat
  expiresAt : Nat
deriving Repr, DecidableEq

/-- A signed JWT in the symbolic signature model: header algorithm, payload
claims, and the id of the private key whose signature covers the payload. -/
structure Token where
  alg : Alg
  claims : Claims
  sigKey : Nat
deriving Repr, DecidableEq

/-- Errors surfaced by jwt.ParseWithClaims as modelled. -/
inductive JWTError
  | unexpectedSigningMethod
  | invalidSignature
  | tokenExpired
deriving Repr, DecidableEq

/-- GenerateAccessToken from pkg/jwt: claims with issuer auth-service,
issuedAt now, expiresAt now plus the configured expiry, signed RS256 with
the private key. -/
def GenerateAccessToken (userID : Nat) (email name role : String)
    (privateKey : Nat) (expiry : Nat) (now : Nat) : Token :=
  { alg := Alg.RS256
    claims :=
      { userID := userID
        email := email
        name := name
        role := role
        issuer := "auth-service"
        issuedAt := now
        expiresAt := now + expiry }
    sigKey := privateKey }

/-- ValidateAccessToken from pkg/jwt: ParseWithClaims with a keyfunc that
rejects non-RSA signing methods, then signature verification against the
public key, then registered-claims validation (jwt v5 requires the current
instant to precede the expiry). -/
def ValidateAccessToken (tok : Token) (publicKey : Nat) (now : Nat) :
    Except JWTError Claims :=
  if ¬ tok.alg.isRSA then Except.error JWTError.unexpectedSigningMethod
  else if tok.sigKey ≠ publicKey then Except.error JWTError.invalidSignature
  else if tok.claims.expiresAt ≤ now then Except.error JWTError.tokenExpired
  else Except.ok tok.claims

/-- GenerateRefreshToken from pkg/jwt: 32 bytes from crypto/rand, base64url
encoded. The random bytes are the explicit argument. -/
def GenerateRefreshToken (rnd : List Nat) : String :=
  base64urlEncode rnd

/-- HashRefreshToken from pkg/jwt: bcrypt.GenerateFromPassword with a fresh
salt. -/
def HashRefreshToken (token : String) (salt : Nat) : BcryptHash :=
  { salt := salt, pw := token }

/-- CompareRefreshToken from pkg/jwt: bcrypt.CompareHashAndPassword, which
recomputes using the salt stored inside the hash and succeeds exactly when
the password matches; true stands for a nil error in Go. -/
def CompareRefreshToken (hash : BcryptHash) (token : String) : Bool :=
  hash.pw = token

end jwt

namespace models

/-- User roles; the valid_role check constraint admits exactly user, admin. -/
inductive Role
  | user
  | admin
deriving Repr, DecidableEq

/-- models.User (with the role column of migration 002). -/
structure User where
  id : Nat
  email : String
  googleId : Option String
  name : String
  avatarUrl : Option String
  role : Role
  isActive : Bool
  createdAt : Nat
  updatedAt : Nat
  deletedAt : Option Nat
deriving Repr, DecidableEq

/-- models.RefreshToken: one refresh_tokens row. -/
structure RefreshToken where
  id : Nat
  userId : Nat
  tokenHash : BcryptHash
  expiresAt : Nat
  createdAt : Nat
  revokedAt : Option Nat
deriving Repr, DecidableEq

/-- models.TokenPair: the access token is a signed JWT, the refresh token the
raw opaque string. -/
structure TokenPair where
  accessToken : jwt.Token
  refreshToken : String
deriving Repr, DecidableEq

/-- models.GoogleUserInfo, the external identity from the provider. -/
structure GoogleUserInfo where
  id : String
  email : String
  verifiedEmail : Bool
  name : String
  picture : String
deriving Repr, DecidableEq

end models

/-- config.Config restricted to the fields the embedded code reads. The
private and public key fields are symbolic pair ids; loadOrGenerateKeys
produces a matched pair, stated as a hypothesis where a theorem needs it. -/
structure Config where
  jwtPrivateKey : Nat
  jwtPublicKey : Nat
  accessTokenExpiry : Nat
  refreshTokenExpiry : Nat
  adminEmails : List String
  allowedOrigins : List String
  googleClientID : String
deriving Repr, DecidableEq

/-- The persisted rows owned by the storage collaborator, plus id counters
standing for DEFAULT-generated primary keys. -/
structure ServiceState where
  users : List models.User
  refreshTokens : List models.RefreshToken
  nextUserId : Nat
  nextTokenId : Nat
deriving Repr, DecidableEq

/-- Error kinds returned by the auth service functions. -/
inductive AuthError
  | invalidRefreshToken
  | userNotFoundOrInactive
  | refreshTokenNotFound
  | userInactive
deriving Repr, DecidableEq

/-- The role strings persisted in the role column. -/
def roleString : models.Role → String
  | models.Role.user => "user"
  | models.Role.admin => "admin"

namespace auth

/-- The candidate scan shared by RefreshAccessToken and RevokeRefreshToken in
internal/auth/service.go: SELECT rows WHERE revoked_at IS NULL AND
expires_at > NOW(), then loop calling jwt.CompareRefreshToken and stop at the
first row whose stored bcrypt hash matches the presented raw value. -/
def rotateScan (s : ServiceState) (now : Nat) (presented : String) :
    Option models.RefreshToken :=
  (s.refreshTokens.filter
      (fun rt => rt.revokedAt.isNone && decide (now < rt.expiresAt))).find?
    (fun rt => jwt.CompareRefreshToken rt.tokenHash presented)

/-- The revocation statement UPDATE refresh_tokens SET revoked_at = NOW()
WHERE id = dollar-1. The WHERE clause tests only the id (no revoked_at IS
NULL conjunct), and both Go call sites discard the command result, so the
number of rows affected is never inspected. -/
def revokeById (s : ServiceState) (tokenId : Nat) (now : Nat) : ServiceState :=
  { s with
    refreshTokens := s.refreshTokens.map
      (fun rt => if rt.id = tokenId then { rt with revokedAt := some now }
                 else rt) }

/-- The user fetch inside RefreshAccessToken: SELECT ... FROM users WHERE
id = dollar-1 AND is_active = true AND deleted_at IS NULL. -/
def findActiveUser (s : ServiceState) (uid : Nat) : Option models.User :=
  s.users.find? (fun u => u.id == uid && u.isActive && u.deletedAt.isNone)

/-- The user lookup in CreateOrUpdateUser: SELECT ... WHERE google_id =
dollar-1 AND deleted_at IS NULL; a none result is pgx.ErrNoRows. -/
def lookupByGoogleId (s : ServiceState) (gid : String) : Option models.User :=
  s.users.find? (fun u => u.googleId == some gid && u.deletedAt.isNone)

/-- The admin allow-list loop in CreateOrUpdateUser: true when some entry of
cfg.AdminEmails equals the email. -/
def emailInAdminList (adminEmails : List String) (email : String) : Bool :=
  adminEmails.any (fun adminEmail => email == adminEmail)

/-- Service.GenerateTokens: sign an access token for the user, draw a random
refresh token, bcrypt it, INSERT the hash with expiry now plus the configured
refresh expiry, and return both tokens; only the hash reaches storage. -/
def GenerateTokens (cfg : Config) (s : ServiceState) (user : models.User)
    (now : Nat) (rnd : List Nat) (salt : Nat) :
    models.TokenPair × ServiceState :=
  let accessToken := jwt.GenerateAccessToken user.id user.email user.name
    (roleString user.role) cfg.jwtPrivateKey cfg.accessTokenExpiry now
  let refreshToken := jwt.GenerateRefreshToken rnd
  let tokenHash := jwt.HashRefreshToken refreshToken salt
  let newRow : models.RefreshToken :=
    { id := s.nextTokenId
      userId := user.id
      tokenHash := tokenHash
      expiresAt := now + cfg.refreshTokenExpiry
      createdAt := now
      revokedAt := none }
  ({ accessToken := accessToken, refreshToken := refreshToken },
   { s with
     refreshTokens := s.refreshTokens ++ [newRow]
     nextTokenId := s.nextTokenId + 1 })

/-- The write phase of Service.RefreshAccessToken, after the scan has picked
a record: revoke that record by id, re-fetch the owning user requiring it
active, then issue the successor pair. Each step is a separate storage call
on its own connection; no transaction encloses them. -/
def rotateCommit (cfg : Config) (s : ServiceState)
    (tokenRecord : models.RefreshToken) (now : Nat) (rnd : List Nat)
    (salt : Nat) : Except AuthError models.TokenPair × ServiceState :=
  let s1 := revokeById s tokenRecord.id now
  match findActiveUser s1 tokenRecord.userId with
  | none => (Except.error AuthError.userNotFoundOrInactive, s1)
  | some u =>
      let res := GenerateTokens cfg s1 u now rnd salt
      (Except.ok res.1, res.2)

/-- Service.RefreshAccessToken: scan for a valid matching record; none means
the invalid-or-expired refresh token error; otherwise revoke it and issue a
fresh pair for the (still active) owner. -/
def RefreshAccessToken (cfg : Config) (s : ServiceState)
    (refreshToken : String) (now : Nat) (rnd : List Nat) (salt : Nat) :
    Except AuthError models.TokenPair × ServiceState :=
  match rotateScan s now refreshToken with
  | none => (Except.error AuthError.invalidRefreshToken, s)
  | some tokenRecord => rotateCommit cfg s tokenRecord now rnd salt

/-- Service.RevokeRefreshToken: the same scan, with the zero uuid as the Go
code's not-found sentinel (var tokenID uuid.UUID starts at uuid.Nil); on a
match, the unconditional revocation update. -/
def RevokeRefreshToken (s : ServiceState) (refreshToken : String)
    (now : Nat) : Except AuthError Unit × ServiceState :=
  let tokenID :=
    match rotateScan s now refreshToken with
    | some tr => tr.id
    | none => 0
  if tokenID = 0 then (Except.error AuthError.refreshTokenNotFound, s)
  else (Except.ok (), revokeById s tokenID now)

/-- Service.CreateOrUpdateUser: look up by external subject id; if absent,
INSERT a new active user whose role is admin exactly when the email is in
the allow-list; if present, UPDATE name and avatar from the identity and
auto-upgrade role from user to admin when the stored email is in the
allow-list, leaving an admin role untouched. Storage errors are below the
granularity of the model, so the Go error return does not appear. -/
def CreateOrUpdateUser (cfg : Config) (s : ServiceState)
    (info : models.GoogleUserInfo) (now : Nat) :
    models.User × ServiceState :=
  match lookupByGoogleId s info.id with
  | none =>
      let initialRole :=
        if emailInAdminList cfg.adminEmails info.email then models.Role.admin
        else models.Role.user
      let newUser : models.User :=
        { id := s.nextUserId
          email := info.email
          googleId := some info.id
          name := info.name
          avatarUrl := some info.picture
          role := initialRole
          isActive := true
          createdAt := now
          updatedAt := now
          deletedAt := none }
      (newUser,
       { s with users := s.users ++ [newUser], nextUserId := s.nextUserId + 1 })
  | some u =>
      let newRole :=
        if u.role == models.Role.user &&
            emailInAdminList cfg.adminEmails u.email then models.Role.admin
        else u.role
      let u2 : models.User :=
        { u with
          name := info.name
          avatarUrl := some info.picture
          role := newRole
          updatedAt := now }
      (u2, { s with users := s.users.map (fun v => if v.id = u.id then u2 else v) })

end auth

namespace handlers

/-- A PEM block as written by Handler.GetPublicKey; in the symbolic key model
it is a tagged copy of the public key id. -/
structure PEMBlock where
  keyId : Nat
deriving Repr, DecidableEq

/-- x509.MarshalPKCS1PublicKey followed by pem.EncodeToMemory. -/
def pemEncodePublicKey (publicKey : Nat) : PEMBlock :=
  { keyId := publicKey }

/-- Handler.GetPublicKey: export the configured public key as PEM. -/
def GetPublicKey (cfg : Config) : PEMBlock :=
  pemEncodePublicKey cfg.jwtPublicKey

/-- A standard third-party signature-verification routine fed with the
exported PEM key: it decodes the PEM block and runs RS256 verification,
which the jwt.ValidateAccessToken model already captures. -/
def verifyWithPEM (pem : PEMBlock) (tok : jwt.Token) (now : Nat) :
    Except jwt.JWTError jwt.Claims :=
  jwt.ValidateAccessToken tok pem.keyId now

/-- The token-issuing core of Handler.GoogleCallback once the CSRF state has
been verified and the code exchanged for an identity: reconcile the user,
reject with the inactive-account error (HTTP 403) before any token is
minted, otherwise generate the pair. -/
def completeLogin (cfg : Config) (s : ServiceState)
    (info : models.GoogleUserInfo) (now : Nat) (rnd : List Nat) (salt : Nat) :
    Except AuthError models.TokenPair × ServiceState :=
  let res := auth.CreateOrUpdateUser cfg s info now
  if res.1.isActive then
    let res2 := auth.GenerateTokens cfg res.2 res.1 now rnd salt
    (Except.ok res2.1, res2.2)
  else (Except.error AuthError.userInactive, res.2)

/-- Responses of the logout endpoint. -/
structure HttpResponse where
  status : Nat
  message : String
deriving Repr, DecidableEq

/-- Handler.Logout: when the refresh_token cookie is present, call
Service.RevokeRefreshToken and discard its result; in every case clear the
cookie and answer HTTP 200 with a success message. -/
def Logout (s : ServiceState) (cookie : Option String) (now : Nat) :
    HttpResponse × ServiceState :=
  match cookie with
  | some raw =>
      let res := auth.RevokeRefreshToken s raw now
      ({ status := 200, message := "Logged out successfully" }, res.2)
  | none => ({ status := 200, message := "Logged out successfully" }, s)

/-- Outcomes of the refresh endpoint. -/
inductive RefreshEndpointResult
  | unauthorizedMissingCookie
  | unauthorized (e : AuthError)
  | success (pair : models.TokenPair)
deriving Repr, DecidableEq

/-- Handler.RefreshToken: missing cookie answers 401; a service error is
forwarded to the caller with status 401; success answers the new pair. -/
def RefreshTokenEndpoint (cfg : Config) (s : ServiceState)
    (cookie : Option String) (now : Nat) (rnd : List Nat) (salt : Nat) :
    RefreshEndpointResult × ServiceState :=
  match cookie with
  | none => (RefreshEndpointResult.unauthorizedMissingCookie, s)
  | some raw =>
      match auth.RefreshAccessToken cfg s raw now rnd salt with
      | (Except.error e, s1) => (RefreshEndpointResult.unauthorized e, s1)
      | (Except.ok pair, s1) => (RefreshEndpointResult.success pair, s1)

/-- Outcomes of Handler.GoogleLogin. indexOutOfRange is the Go runtime panic
on AllowedOrigins[0] when the configured list is empty. -/
inductive LoginResult
  | indexOutOfRange
  | badRequest (msg : String)
  | redirect (url : String)
deriving Repr, DecidableEq

/-- The observable output of Handler.GoogleLogin: the cookies it set and how
it answered. -/
structure LoginOutcome where
  cookies : List (String × String)
  result : LoginResult
deriving Repr, DecidableEq

/-- Service.GetGoogleAuthURL via oauth2.Config.AuthCodeURL: the provider
authorization URL carrying the client id and the state. -/
def GetGoogleAuthURL (cfg : Config) (state : String) : String :=
  "https://accounts.google.com/o/oauth2/auth?client_id=" ++
    cfg.googleClientID ++ "&state=" ++ state

/-- strings.HasPrefix from the Go standard library, on the character
sequences of the two strings. -/
def strStartsWith (s p : String) : Bool :=
  p.data.isPrefixOf s.data

/-- The allow-list test of Handler.GoogleLogin: the redirect target equals a
configured origin, or begins with a configured origin followed by a slash. -/
def validRedirect (allowedOrigins : List String) (uri : String) : Bool :=
  allowedOrigins.any
    (fun origin => uri == origin || strStartsWith uri (origin ++ "/"))

/-- Handler.GoogleLogin: default an absent redirect_uri parameter to the
first allowed origin (a Go index panic when the list is empty), reject a
target failing validRedirect with HTTP 400 before generating any CSRF state
or setting any cookie, and otherwise set the oauth_state and oauth_redirect
cookies and redirect to the provider authorization URL. -/
def GoogleLogin (cfg : Config) (redirectParam : String)
    (stateRnd : List Nat) : LoginOutcome :=
  if redirectParam = "" ∧ cfg.allowedOrigins = [] then
    { cookies := [], result := LoginResult.indexOutOfRange }
  else
    let redirectURI :=
      if redirectParam = "" then cfg.allowedOrigins.headD ""
      else redirectParam
    if ¬ validRedirect cfg.allowedOrigins redirectURI then
      { cookies := [], result := LoginResult.badRequest "Invalid redirect_uri" }
    else
      let st := base64urlEncode stateRnd
      { cookies := [("oauth_state", st), ("oauth_redirect", redirectURI)]
        result := LoginResult.redirect (GetGoogleAuthURL cfg st) }

end handlers

/-- The state-changing operations of the embedded core, for quantifying over
every operation: complete a login, issue a pair directly, rotate, revoke. -/
inductive Op
  | login (info : models.GoogleUserInfo) (rnd : List Nat) (salt : Nat)
  | issueTokens (user : models.User) (rnd : List Nat) (salt : Nat)
  | rotate (raw : String) (rnd : List Nat) (salt : Nat)
  | revoke (raw : String)

/-- The state reached by running one operation. -/
def applyOp (cfg : Config) (op : Op) (s : ServiceState) (now : Nat) :
    ServiceState :=
  match op with
  | Op.login info rnd salt => (handlers.completeLogin cfg s info now rnd salt).2
  | Op.issueTokens u rnd salt => (auth.GenerateTokens cfg s u now rnd salt).2
  | Op.rotate raw rnd salt => (auth.RefreshAccessToken cfg s raw now rnd salt).2
  | Op.revoke raw => (auth.RevokeRefreshToken s raw now).2

/-! Concrete fixtures used by counterexamples and witnesses. -/

/-- A concrete configuration with a matched key pair. -/
def cfgA : Config :=
  { jwtPrivateKey := 7
    jwtPublicKey := 7
    accessTokenExpiry := 900
    refreshTokenExpiry := 604800
    adminEmails := ["root@x.com"]
    allowedOrigins := ["http://a.com", "http://b.com"]
    googleClientID := "cid" }

/-- An active ordinary user. -/
def userAlice : models.User :=
  { id := 1, email := "alice@x.com", googleId := some "g-alice"
    name := "Alice", avatarUrl := none, role := models.Role.user
    isActive := true, createdAt := 0, updatedAt := 0, deletedAt := none }

/-- An active user whose email is on the admin allow-list but whose stored
role is still user. -/
def userRoot : models.User :=
  { id := 2, email := "root@x.com", googleId := some "g-root"
    name := "Root", avatarUrl := none, role := models.Role.user
    isActive := true, createdAt := 0, updatedAt := 0, deletedAt := none }

/-- An active user whose stored role is admin. -/
def userAdmin : models.User :=
  { id := 3, email := "adm@x.com", googleId := some "g-adm"
    name := "Adm", avatarUrl := none, role := models.Role.admin
    isActive := true, createdAt := 0, updatedAt := 0, deletedAt := none }

/-- A deactivated user. -/
def userCarol : models.User :=
  { id := 4, email := "carol@x.com", googleId := some "g-carol"
    name := "Carol", avatarUrl := none, role := models.Role.user
    isActive := false, createdAt := 0, updatedAt := 0, deletedAt := none }

/-- A valid refresh-token row owned by the active user. -/
def rowAlice : models.RefreshToken :=
  { id := 1, userId := 1, tokenHash := jwt.HashRefreshToken "rawA" 5
    expiresAt := 1000, createdAt := 0, revokedAt := none }

/-- A valid refresh-token row owned by the deactivated user. -/
def rowCarol : models.RefreshToken :=
  { id := 2, userId := 4, tokenHash := jwt.HashRefreshToken "rawC" 6
    expiresAt := 1000, createdAt := 0, revokedAt := none }

/-- A concrete store with the four users and the two valid token rows. -/
def stateA : ServiceState :=
  { users := [userAlice, userRoot, userAdmin, userCarol]
    refreshTokens := [rowAlice, rowCarol]
    nextUserId := 5
    nextTokenId := 3 }

/-- A fresh external identity whose email is not on the allow-list. -/
def infoEve : models.GoogleUserInfo :=
  { id := "g-eve", email := "eve@x.com", verifiedEmail := true
    name := "Eve", picture := "pe" }

/-- A fresh external identity whose email is on the allow-list. -/
def infoNewRoot : models.GoogleUserInfo :=
  { id := "g-newroot", email := "root@x.com", verifiedEmail := true
    name := "NewRoot", picture := "pr" }

/-- The returning identity of the stored allow-listed user. -/
def infoRoot : models.GoogleUserInfo :=
  { id := "g-root", email := "root@x.com", verifiedEmail := true
    name := "Root", picture := "pr" }

/-- The returning identity of the stored admin. -/
def infoAdmin : models.GoogleUserInfo :=
  { id := "g-adm", email := "adm@x.com", verifiedEmail := true
    name := "Adm", picture := "pa" }

/-- The returning identity of the deactivated user. -/
def infoCarol : models.GoogleUserInfo :=
  { id := "g-carol", email := "carol@x.com", verifiedEmail := true
    name := "Carol", picture := "pc" }

/-! Theorems. -/

/-- Service.RefreshAccessToken is exactly the candidate scan followed by the
commit phase; these are separate storage round-trips with no enclosing
transaction, so two concurrent calls can interleave at this boundary. -/
theorem refreshAccessToken_phases (cfg : Config) (s : ServiceState)
    (raw : String) (now : Nat) (rnd : List Nat) (salt : Nat) :
    auth.RefreshAccessToken cfg s raw now rnd salt =
      match auth.rotateScan s now raw with
      | none => (Except.error AuthError.invalidRefreshToken, s)
      | some tr => auth.rotateCommit cfg s tr now rnd salt := rfl

/-- C2: the claim says that of two concurrent rotations presenting the same
raw token exactly one succeeds, the other failing with InvalidRefreshToken,
thanks to a conditional revocation update whose zero-rows-affected outcome
the loser observes. The code has no such mechanism: the update tests only
the row id and its affected-row count is discarded, so in the interleaving
scan-1, scan-2, commit-1, commit-2 on a store with one valid token both
calls pick the same record and both commits succeed, producing two pairs
derived from one record. -/
theorem concurrent_rotation_both_succeed :
    auth.rotateScan stateA 10 "rawA" = some rowAlice ∧
    (auth.rotateCommit cfgA stateA rowAlice 10 [1] 11).1.isOk = true ∧
    (auth.rotateCommit cfgA
        (auth.rotateCommit cfgA stateA rowAlice 10 [1] 11).2
        rowAlice 10 [2] 12).1.isOk = true := by
  decide

/-- C3: the claim says a rotate call that returns an error leaves the stored
state unchanged. Rotating the valid token of the deactivated user returns
the user-not-found-or-inactive error, yet the matched record has been
revoked and no successor row was inserted: a revoked-without-replacement
record where revocation was not the explicit intent. -/
theorem failed_rotation_leaves_revoked_orphan :
    (auth.RefreshAccessToken cfgA stateA "rawC" 10 [2] 3).1 =
        Except.error AuthError.userNotFoundOrInactive ∧
      (auth.RefreshAccessToken cfgA stateA "rawC" 10 [2] 3).2.refreshTokens =
        [rowAlice, { rowCarol with revokedAt := some 10 }] :=
  ⟨rfl, rfl⟩

/-- C9: when the presented raw value matches no valid stored token, the
service-level revoke reports not-found, but the logout endpoint discards
that result and answers HTTP 200 with the state unchanged; the logout
endpoint always answers 200; and the refresh endpoint forwards every
rotation error to the caller rather than swallowing it. -/
theorem logout_no_match_silent :
    ∀ (s : ServiceState) (raw : String) (now : Nat),
      (auth.rotateScan s now raw = none →
        (auth.RevokeRefreshToken s raw now).1 =
            Except.error AuthError.refreshTokenNotFound ∧
          handlers.Logout s (some raw) now =
            ({ status := 200, message := "Logged out successfully" }, s)) ∧
      (∀ cookie, (handlers.Logout s cookie now).1.status = 200) ∧
      (∀ cfg rnd salt e s1,
        auth.RefreshAccessToken cfg s raw now rnd salt = (Except.error e, s1) →
        handlers.RefreshTokenEndpoint cfg s (some raw) now rnd salt =
          (handlers.RefreshEndpointResult.unauthorized e, s1)) := by
  intro s raw now
  refine ⟨?_, ?_, ?_⟩
  · intro h
    constructor
    · simp [auth.RevokeRefreshToken, h]
    · simp [handlers.Logout, auth.RevokeRefreshToken, h]
  · intro cookie
    cases cookie <;> rfl
  · intro cfg rnd salt e s1 h
    simp [handlers.RefreshTokenEndpoint, h]

/-- C9 witness: on the concrete store, a raw value matching nothing makes the
service revoke report not-found while logout answers 200 leaving the store
unchanged. -/
theorem logout_no_match_witness :
    (auth.RevokeRefreshToken stateA "nomatch" 10).1 =
        Except.error AuthError.refreshTokenNotFound ∧
      handlers.Logout stateA (some "nomatch") 10 =
        ({ status := 200, message := "Logged out successfully" }, stateA) :=
  (logout_no_match_silent stateA "nomatch" 10).1 (by decide)

/-- C10: a caller-supplied redirect target is rejected with HTTP 400, before
any CSRF state is generated or cookie is set, exactly when it neither equals
a configured allowed origin nor extends one with a slash-separated path; an
absent target behaves as the first configured origin. -/
theorem begin_login_redirect_validation :
    ∀ (cfg : Config) (param : String) (rnd : List Nat),
      (param ≠ "" →
        ((handlers.GoogleLogin cfg param rnd).result =
            handlers.LoginResult.badRequest "Invalid redirect_uri" ↔
          handlers.validRedirect cfg.allowedOrigins param = false)) ∧
      (param ≠ "" → handlers.validRedirect cfg.allowedOrigins param = false →
        handlers.GoogleLogin cfg param rnd =
          { cookies := []
            result := handlers.LoginResult.badRequest "Invalid redirect_uri" }) ∧
      (handlers.validRedirect cfg.allowedOrigins param = true ↔
        ∃ origin ∈ cfg.allowedOrigins,
          param = origin ∨ handlers.strStartsWith param (origin ++ "/") = true) ∧
      (param = "" → cfg.allowedOrigins ≠ [] →
        handlers.GoogleLogin cfg param rnd =
          handlers.GoogleLogin cfg (cfg.allowedOrigins.headD "") rnd) := by
  intro cfg param rnd
  refine ⟨?_, ?_, ?_, ?_⟩
  · intro hne
    cases hv : handlers.validRedirect cfg.allowedOrigins param <;>
      simp [handlers.GoogleLogin, hne, hv]
  · intro hne hv
    simp [handlers.GoogleLogin, hne, hv]
  · simp [handlers.validRedirect, List.any_eq_true, Bool.or_eq_true,
      beq_iff_eq]
  · intro hempty hnil
    by_cases hh : cfg.allowedOrigins.headD "" = "" <;>
      simp [handlers.GoogleLogin, hempty, hnil, hh]

/-- C10 witness: on the concrete configuration, a foreign target is rejected
with no cookie set, and an absent target behaves as the first origin. -/
theorem begin_login_redirect_witness :
    handlers.GoogleLogin cfgA "http://evil.com/cb" [3] =
        { cookies := []
          result := handlers.LoginResult.badRequest "Invalid redirect_uri" } ∧
      handlers.GoogleLogin cfgA "" [3] =
        handlers.GoogleLogin cfgA "http://a.com" [3] :=
  ⟨(begin_login_redirect_validation cfgA "http://evil.com/cb" [3]).2.1
      (by decide) (by decide),
    (begin_login_redirect_validation cfgA "" [3]).2.2.2 (by decide) (by decide)⟩

/-- User reconciliation touches only the users table, never refresh_tokens. -/
theorem createOrUpdateUser_refreshTokens (cfg : Config) (s : ServiceState)
    (info : models.GoogleUserInfo) (now : Nat) :
    (auth.CreateOrUpdateUser cfg s info now).2.refreshTokens =
      s.refreshTokens := by
  unfold auth.CreateOrUpdateUser
  cases auth.lookupByGoogleId s info.id <;> simp

/-- The revocation update leaves the users table untouched, so the user fetch
of the rotation sees the same rows before and after it. -/
theorem findActiveUser_revokeById (s : ServiceState) (tid now uid : Nat) :
    auth.findActiveUser (auth.revokeById s tid now) uid =
      auth.findActiveUser s uid := rfl

/-- C6: when the reconciled user is inactive, completeLogin fails with the
user-inactive error before any token is issued (the refresh-token table is
unchanged); rotation of a token whose owner rows are all inactive fails as
well; but access-token validation is a pure function of the token and the
public key, so a token issued earlier still validates until its expiry. -/
theorem inactive_user_login_and_rotation :
    ∀ (cfg : Config) (s : ServiceState) (info : models.GoogleUserInfo)
      (now : Nat) (rnd : List Nat) (salt : Nat),
      ((auth.CreateOrUpdateUser cfg s info now).1.isActive = false →
        handlers.completeLogin cfg s info now rnd salt =
            (Except.error AuthError.userInactive,
              (auth.CreateOrUpdateUser cfg s info now).2) ∧
          (handlers.completeLogin cfg s info now rnd salt).2.refreshTokens =
            s.refreshTokens) ∧
      (∀ raw tr, auth.rotateScan s now raw = some tr →
        (∀ u ∈ s.users, u.id = tr.userId → u.isActive = false) →
        (auth.RefreshAccessToken cfg s raw now rnd salt).1 =
          Except.error AuthError.userNotFoundOrInactive) ∧
      (∀ (u : models.User) (t now2 : Nat),
        cfg.jwtPublicKey = cfg.jwtPrivateKey →
        now2 < t + cfg.accessTokenExpiry →
        jwt.ValidateAccessToken
            (jwt.GenerateAccessToken u.id u.email u.name (roleString u.role)
              cfg.jwtPrivateKey cfg.accessTokenExpiry t)
            cfg.jwtPublicKey now2 =
          Except.ok
            (jwt.GenerateAccessToken u.id u.email u.name (roleString u.role)
              cfg.jwtPrivateKey cfg.accessTokenExpiry t).claims) := by
  intro cfg s info now rnd salt
  refine ⟨?_, ?_, ?_⟩
  · intro h
    constructor
    · simp [handlers.completeLogin, h]
    · simp [handlers.completeLogin, h, createOrUpdateUser_refreshTokens]
  · intro raw tr hscan hinact
    have hnone : auth.findActiveUser (auth.revokeById s tr.id now)
        tr.userId = none := by
      rw [findActiveUser_revokeById]
      apply List.find?_eq_none.mpr
      intro u hu
      simp only [Bool.and_eq_true, beq_iff_eq, Option.isNone_iff_eq_none,
        not_and]
      intro hpre
      exact absurd (hinact u hu hpre.1) (by simp [hpre.2])

    simp [auth.RefreshAccessToken, hscan, auth.rotateCommit, hnone]
  · intro u t now2 hkey hlt
    rw [hkey]
    simp only [jwt.ValidateAccessToken, jwt.GenerateAccessToken,
      jwt.Alg.isRSA]
    simp [show ¬(t + cfg.accessTokenExpiry ≤ now2) from by omega]

/-- C6 witness: the deactivated user cannot complete login or rotate, while
an access token issued for an active user at instant 0 still validates at
instant 500. -/
theorem inactive_user_login_witness :
    handlers.completeLogin cfgA stateA infoCarol 20 [5] 8 =
        (Except.error AuthError.userInactive,
          (auth.CreateOrUpdateUser cfgA stateA infoCarol 20).2) ∧
      (auth.RefreshAccessToken cfgA stateA "rawC" 20 [5] 8).1 =
        Except.error AuthError.userNotFoundOrInactive ∧
      jwt.ValidateAccessToken
          (jwt.GenerateAccessToken userAlice.id userAlice.email userAlice.name
            (roleString userAlice.role) cfgA.jwtPrivateKey
            cfgA.accessTokenExpiry 0)
          cfgA.jwtPublicKey 500 =
        Except.ok
          (jwt.GenerateAccessToken userAlice.id userAlice.email userAlice.name
            (roleString userAlice.role) cfgA.jwtPrivateKey
            cfgA.accessTokenExpiry 0).claims :=
  ⟨((inactive_user_login_and_rotation cfgA stateA infoCarol 20 [5] 8).1
      (by decide)).1,
    (inactive_user_login_and_rotation cfgA stateA infoCarol 20 [5] 8).2.1
      "rawC" rowCarol (by decide) (by decide),
    (inactive_user_login_and_rotation cfgA stateA infoCarol 20 [5] 8).2.2
      userAlice 0 500 rfl (by decide)⟩

/-- C7: reconciliation assigns roles exactly as claimed: a new user is
created admin precisely when the identity email is on the allow-list and
user otherwise; an existing user still holding role user is upgraded
precisely when the stored email is on the allow-list; a stored admin is
never changed. -/
theorem reconciliation_role_assignment :
    ∀ (cfg : Config) (s : ServiceState) (info : models.GoogleUserInfo)
      (now : Nat),
      (∀ (es : List String) (e : String),
        auth.emailInAdminList es e = true ↔ e ∈ es) ∧
      (auth.lookupByGoogleId s info.id = none →
        ((auth.CreateOrUpdateUser cfg s info now).1.role =
            models.Role.admin ↔
          auth.emailInAdminList cfg.adminEmails info.email = true) ∧
        (auth.emailInAdminList cfg.adminEmails info.email = false →
          (auth.CreateOrUpdateUser cfg s info now).1.role =
            models.Role.user)) ∧
      (∀ u, auth.lookupByGoogleId s info.id = some u →
        u.role = models.Role.user →
        ((auth.CreateOrUpdateUser cfg s info now).1.role =
            models.Role.admin ↔
          auth.emailInAdminList cfg.adminEmails u.email = true)) ∧
      (∀ u, auth.lookupByGoogleId s info.id = some u →
        u.role = models.Role.admin →
        (auth.CreateOrUpdateUser cfg s info now).1.role =
          models.Role.admin) := by
  intro cfg s info now
  refine ⟨?_, ?_, ?_, ?_⟩
  · intro es e
    simp only [auth.emailInAdminList, List.any_eq_true, beq_iff_eq]
    constructor
    · rintro ⟨a, ha, h⟩
      rw [h]; exact ha
    · intro h
      exact ⟨e, h, rfl⟩
  · intro hlk
    cases he : auth.emailInAdminList cfg.adminEmails info.email <;>
      simp [auth.CreateOrUpdateUser, hlk, he]
  · intro u hlk hrole
    cases he : auth.emailInAdminList cfg.adminEmails u.email <;>
      simp [auth.CreateOrUpdateUser, hlk, he, hrole]
  · intro u hlk hrole
    simp [auth.CreateOrUpdateUser, hlk, hrole]

/-- C7 witness: concrete reconciliations on the fixture store: a fresh
allow-listed identity becomes admin, a fresh ordinary identity becomes user,
the stored allow-listed user is upgraded, and the stored admin stays admin
under an allow-list not containing its email. -/
theorem reconciliation_role_witness :
    (auth.emailInAdminList cfgA.adminEmails "root@x.com" = true ↔
        "root@x.com" ∈ cfgA.adminEmails) ∧
      ((auth.CreateOrUpdateUser cfgA stateA infoNewRoot 30).1.role =
          models.Role.admin ↔
        auth.emailInAdminList cfgA.adminEmails infoNewRoot.email = true) ∧
      (auth.CreateOrUpdateUser cfgA stateA infoEve 30).1.role =
        models.Role.user ∧
      ((auth.CreateOrUpdateUser cfgA stateA infoRoot 30).1.role =
          models.Role.admin ↔
        auth.emailInAdminList cfgA.adminEmails userRoot.email = true) ∧
      (auth.CreateOrUpdateUser cfgA stateA infoAdmin 30).1.role =
        models.Role.admin :=
  ⟨(reconciliation_role_assignment cfgA stateA infoCarol 0).1
      cfgA.adminEmails "root@x.com",
    ((reconciliation_role_assignment cfgA stateA infoNewRoot 30).2.1
      (by decide)).1,
    ((reconciliation_role_assignment cfgA stateA infoEve 30).2.1
      (by decide)).2 (by decide),
    (reconciliation_role_assignment cfgA stateA infoRoot 30).2.2.1
      userRoot (by decide) rfl,
    (reconciliation_role_assignment cfgA stateA infoAdmin 30).2.2.2
      userAdmin (by decide) rfl⟩

/-- C4: issuing an access token for a user and validating it with the public
half of the same key pair succeeds, the claims subject is the user id, the
expiry is the issue instant plus the configured TTL, and the exported PEM
public key makes a standard verification routine accept every token issued
with the private half of that pair while it is unexpired. -/
theorem issue_then_validate_roundtrip :
    ∀ (cfg : Config) (s : ServiceState) (u : models.User) (now : Nat)
      (rnd : List Nat) (salt : Nat),
      cfg.jwtPublicKey = cfg.jwtPrivateKey →
      u.isActive = true →
      0 < cfg.accessTokenExpiry →
      (jwt.ValidateAccessToken
          (auth.GenerateTokens cfg s u now rnd salt).1.accessToken
          cfg.jwtPublicKey now =
        Except.ok
          (auth.GenerateTokens cfg s u now rnd salt).1.accessToken.claims) ∧
      (auth.GenerateTokens cfg s u now rnd salt).1.accessToken.claims.userID =
        u.id ∧
      (auth.GenerateTokens cfg s u now rnd
          salt).1.accessToken.claims.expiresAt =
        (auth.GenerateTokens cfg s u now rnd
            salt).1.accessToken.claims.issuedAt + cfg.accessTokenExpiry ∧
      (∀ (uid : Nat) (email name role : String) (t now2 : Nat),
        now2 < t + cfg.accessTokenExpiry →
        (handlers.verifyWithPEM (handlers.GetPublicKey cfg)
            (jwt.GenerateAccessToken uid email name role cfg.jwtPrivateKey
              cfg.accessTokenExpiry t) now2).isOk = true) := by
  intro cfg s u now rnd salt hkey hact httl
  refine ⟨?_, rfl, rfl, ?_⟩
  · rw [hkey]
    simp only [auth.GenerateTokens, jwt.ValidateAccessToken,
      jwt.GenerateAccessToken, jwt.Alg.isRSA]
    simp [show ¬(now + cfg.accessTokenExpiry ≤ now) from by omega]
  · intro uid email name role t now2 hlt
    simp only [handlers.verifyWithPEM, handlers.GetPublicKey,
      handlers.pemEncodePublicKey, jwt.ValidateAccessToken,
      jwt.GenerateAccessToken, jwt.Alg.isRSA]
    rw [hkey]
    simp [show ¬(t + cfg.accessTokenExpiry ≤ now2) from by omega,
      Except.isOk, Except.toBool]

/-- C4 witness: on the concrete configuration and user, issue at instant 100
then validate at instant 100 returns the expected claims, and the exported
public key verifies a token issued at instant 0 when checked at 10. -/
theorem issue_then_validate_witness :
    jwt.ValidateAccessToken
        (auth.GenerateTokens cfgA stateA userAlice 100 [1] 2).1.accessToken
        cfgA.jwtPublicKey 100 =
      Except.ok
        (auth.GenerateTokens cfgA stateA userAlice 100
          [1] 2).1.accessToken.claims ∧
      (auth.GenerateTokens cfgA stateA userAlice 100
          [1] 2).1.accessToken.claims.userID = userAlice.id ∧
      (auth.GenerateTokens cfgA stateA userAlice 100
          [1] 2).1.accessToken.claims.expiresAt =
        (auth.GenerateTokens cfgA stateA userAlice 100
            [1] 2).1.accessToken.claims.issuedAt + cfgA.accessTokenExpiry ∧
      (handlers.verifyWithPEM (handlers.GetPublicKey cfgA)
          (jwt.GenerateAccessToken 1 "e" "n" "user" cfgA.jwtPrivateKey
            cfgA.accessTokenExpiry 0) 10).isOk = true :=
  have h := issue_then_validate_roundtrip cfgA stateA userAlice 100 [1] 2
    rfl rfl (by decide)
  ⟨h.1, h.2.1, h.2.2.1, h.2.2.2 1 "e" "n" "user" 0 10 (by decide)⟩

/-- C5: a token whose signature was produced by any private key other than
the service key, or whose header declares a non-RSA algorithm, is rejected
by validation with an error. -/
theorem validate_rejects_foreign_key :
    ∀ (cfg : Config) (tok : jwt.Token) (now : Nat),
      cfg.jwtPublicKey = cfg.jwtPrivateKey →
      (tok.sigKey ≠ cfg.jwtPrivateKey ∨ tok.alg.isRSA = false) →
      ∃ e, jwt.ValidateAccessToken tok cfg.jwtPublicKey now =
        Except.error e := by
  intro cfg tok now hkey hbad
  rw [hkey]
  unfold jwt.ValidateAccessToken
  cases halg : tok.alg.isRSA with
  | false => exact ⟨jwt.JWTError.unexpectedSigningMethod, by simp [halg]⟩
  | true =>
      rcases hbad with hsig | hra
      · exact ⟨jwt.JWTError.invalidSignature, by simp [halg, hsig]⟩
      · rw [halg] at hra; cases hra

/-- C5 witness: a token signed RS256 by the foreign private key 8 and an
unexpired HS256 token signed with the service key are both rejected. -/
theorem validate_rejects_foreign_key_witness :
    (∃ e, jwt.ValidateAccessToken
        { alg := jwt.Alg.RS256
          claims := (auth.GenerateTokens cfgA stateA userAlice 0
            [1] 2).1.accessToken.claims
          sigKey := 8 } cfgA.jwtPublicKey 0 = Except.error e) ∧
      (∃ e, jwt.ValidateAccessToken
        { alg := jwt.Alg.HS256
          claims := (auth.GenerateTokens cfgA stateA userAlice 0
            [1] 2).1.accessToken.claims
          sigKey := 7 } cfgA.jwtPublicKey 0 = Except.error e) :=
  ⟨validate_rejects_foreign_key cfgA _ 0 rfl (Or.inl (by decide)),
    validate_rejects_foreign_key cfgA _ 0 rfl (Or.inr (by decide))⟩

/-- A list of length at most one has at most one member. -/
theorem list_len_le_one_eq {α : Type} {l : List α} (h : l.length ≤ 1)
    {a b : α} (ha : a ∈ l) (hb : b ∈ l) : a = b := by
  cases l with
  | nil => cases ha
  | cons x xs =>
      cases xs with
      | nil =>
          rw [List.mem_singleton] at ha hb
          rw [ha, hb]
      | cons y ys => simp at h

/-- The refresh-token rows after GenerateTokens: the previous rows followed
by the freshly inserted one, which stores only the bcrypt hash of the new
raw token. -/
theorem generateTokens_refreshTokens (cfg : Config) (s : ServiceState)
    (u : models.User) (now : Nat) (rnd : List Nat) (salt : Nat) :
    (auth.GenerateTokens cfg s u now rnd salt).2.refreshTokens =
      s.refreshTokens ++
        [{ id := s.nextTokenId, userId := u.id
           tokenHash := jwt.HashRefreshToken (jwt.GenerateRefreshToken rnd) salt
           expiresAt := now + cfg.refreshTokenExpiry, createdAt := now
           revokedAt := none }] := rfl

/-- The refresh-token rows after the revocation update: the same rows, with
revoked_at set on those whose id matches. -/
theorem revokeById_refreshTokens (s : ServiceState) (tid now : Nat) :
    (auth.revokeById s tid now).refreshTokens =
      s.refreshTokens.map
        (fun rt => if rt.id = tid then { rt with revokedAt := some now }
                   else rt) := rfl

/-- The revocation update does not touch the id counter. -/
theorem revokeById_nextTokenId (s : ServiceState) (tid now : Nat) :
    (auth.revokeById s tid now).nextTokenId = s.nextTokenId := rfl

/-- Sequential at-most-once redemption: when a rotation succeeds, presenting
the same raw value to the resulting store always yields the
invalid-refresh-token error. The two hypotheses are the cryptographic
side conditions: at most one stored bcrypt hash matches the presented value
(hashes of 256-bit random tokens), and the fresh successor token does not
collide with the presented one. -/
theorem rotate_second_fails :
    ∀ (cfg : Config) (s : ServiceState) (raw : String) (now : Nat)
      (rnd : List Nat) (salt : Nat),
      (auth.RefreshAccessToken cfg s raw now rnd salt).1.isOk = true →
      (s.refreshTokens.filter
          (fun rt => jwt.CompareRefreshToken rt.tokenHash raw)).length ≤ 1 →
      jwt.CompareRefreshToken
          (jwt.HashRefreshToken (jwt.GenerateRefreshToken rnd) salt) raw =
        false →
      ∀ (now2 : Nat) (rnd2 : List Nat) (salt2 : Nat),
        (auth.RefreshAccessToken cfg
            ((auth.RefreshAccessToken cfg s raw now rnd salt).2) raw now2
            rnd2 salt2).1 = Except.error AuthError.invalidRefreshToken := by
  intro cfg s raw now rnd salt hok huniq hfresh now2 rnd2 salt2
  cases hscan : auth.rotateScan s now raw with
  | none =>
      simp [auth.RefreshAccessToken, hscan, Except.isOk, Except.toBool]
        at hok
  | some tr =>
      have hscan' :
          (s.refreshTokens.filter
              (fun rt =>
                rt.revokedAt.isNone && decide (now < rt.expiresAt))).find?
            (fun rt => jwt.CompareRefreshToken rt.tokenHash raw) =
            some tr := hscan
      have htr_cmp : jwt.CompareRefreshToken tr.tokenHash raw = true := by
        have h := List.find?_some hscan'
        simpa using h
      have htr_mem : tr ∈ s.refreshTokens :=
        (List.mem_filter.mp (List.mem_of_find?_eq_some hscan')).1
      cases hfu : auth.findActiveUser (auth.revokeById s tr.id now)
          tr.userId with
      | none =>
          simp [auth.RefreshAccessToken, hscan, auth.rotateCommit, hfu,
            Except.isOk, Except.toBool] at hok
      | some u =>
          have hs2 : (auth.RefreshAccessToken cfg s raw now rnd salt).2 =
              (auth.GenerateTokens cfg (auth.revokeById s tr.id now) u now
                rnd salt).2 := by
            simp [auth.RefreshAccessToken, hscan, auth.rotateCommit, hfu]
          rw [hs2]
          have hscan2 : auth.rotateScan
              ((auth.GenerateTokens cfg (auth.revokeById s tr.id now) u now
                rnd salt).2) now2 raw = none := by
            unfold auth.rotateScan
            apply List.find?_eq_none.mpr
            intro x hx
            obtain ⟨hxm, hxv⟩ := List.mem_filter.mp hx
            rw [generateTokens_refreshTokens] at hxm
            rcases List.mem_append.mp hxm with hxm | hxm
            · rw [revokeById_refreshTokens] at hxm
              obtain ⟨rt0, hrt0, hfx⟩ := List.mem_map.mp hxm
              by_cases hid : rt0.id = tr.id
              · have hxr : x.revokedAt = some now := by
                  rw [← hfx]; simp [hid]
                rw [hxr] at hxv
                simp at hxv
              · have hxeq : x = rt0 := by rw [← hfx]; simp [hid]
                subst hxeq
                simp only [Bool.not_eq_true]
                cases hc : jwt.CompareRefreshToken x.tokenHash raw with
                | false => rfl
                | true =>
                    exfalso
                    have hx_in : x ∈ s.refreshTokens.filter
                        (fun rt =>
                          jwt.CompareRefreshToken rt.tokenHash raw) :=
                      List.mem_filter.mpr ⟨hrt0, hc⟩
                    have htr_in : tr ∈ s.refreshTokens.filter
                        (fun rt =>
                          jwt.CompareRefreshToken rt.tokenHash raw) :=
                      List.mem_filter.mpr ⟨htr_mem, htr_cmp⟩
                    exact hid (by rw [list_len_le_one_eq huniq hx_in htr_in])
            · rw [List.mem_singleton] at hxm
              subst hxm
              simp [hfresh]
          simp [auth.RefreshAccessToken, hscan2]

/-- Every operation maps the stored refresh-token rows pointwise through a
function that never clears a revoked_at value (the only UPDATE sets it), and
appends freshly inserted rows at the end. -/
theorem applyOp_shape (cfg : Config) (op : Op) (s : ServiceState)
    (now : Nat) :
    ∃ (g : models.RefreshToken → models.RefreshToken)
      (ins : List models.RefreshToken),
      (applyOp cfg op s now).refreshTokens = s.refreshTokens.map g ++ ins ∧
        ∀ rt, rt.revokedAt.isSome = true → (g rt).revokedAt.isSome = true := by
  cases op with
  | login info rnd salt =>
      by_cases hact : (auth.CreateOrUpdateUser cfg s info now).1.isActive
      · refine ⟨fun rt => rt,
          [{ id := (auth.CreateOrUpdateUser cfg s info now).2.nextTokenId
             userId := (auth.CreateOrUpdateUser cfg s info now).1.id
             tokenHash := jwt.HashRefreshToken
               (jwt.GenerateRefreshToken rnd) salt
             expiresAt := now + cfg.refreshTokenExpiry, createdAt := now
             revokedAt := none }], ?_, fun rt h => h⟩
        simp [applyOp, handlers.completeLogin, hact,
          generateTokens_refreshTokens, createOrUpdateUser_refreshTokens,
          List.map_id']
      · refine ⟨fun rt => rt, [], ?_, fun rt h => h⟩
        simp [applyOp, handlers.completeLogin, hact,
          createOrUpdateUser_refreshTokens, List.map_id']
  | issueTokens u rnd salt =>
      refine ⟨fun rt => rt,
        [{ id := s.nextTokenId, userId := u.id
           tokenHash := jwt.HashRefreshToken (jwt.GenerateRefreshToken rnd) salt
           expiresAt := now + cfg.refreshTokenExpiry, createdAt := now
           revokedAt := none }], ?_, fun rt h => h⟩
      simp [applyOp, generateTokens_refreshTokens, List.map_id']
  | rotate raw rnd salt =>
      cases hscan : auth.rotateScan s now raw with
      | none =>
          refine ⟨fun rt => rt, [], ?_, fun rt h => h⟩
          simp [applyOp, auth.RefreshAccessToken, hscan, List.map_id']
      | some tr =>
          cases hfu : auth.findActiveUser (auth.revokeById s tr.id now)
              tr.userId with
          | none =>
              refine ⟨fun rt => if rt.id = tr.id
                then { rt with revokedAt := some now } else rt, [], ?_, ?_⟩
              · simp [applyOp, auth.RefreshAccessToken, hscan,
                  auth.rotateCommit, hfu, revokeById_refreshTokens]
              · intro rt h
                by_cases hid : rt.id = tr.id <;> simp [hid, h]
          | some u =>
              refine ⟨fun rt => if rt.id = tr.id
                then { rt with revokedAt := some now } else rt,
                [{ id := s.nextTokenId, userId := u.id
                   tokenHash := jwt.HashRefreshToken
                     (jwt.GenerateRefreshToken rnd) salt
                   expiresAt := now + cfg.refreshTokenExpiry, createdAt := now
                   revokedAt := none }], ?_, ?_⟩
              · simp only [applyOp, auth.RefreshAccessToken, hscan,
                  auth.rotateCommit]
                rw [hfu]
                simp [generateTokens_refreshTokens,
                  revokeById_refreshTokens, revokeById_nextTokenId]
              · intro rt h
                by_cases hid : rt.id = tr.id <;> simp [hid, h]
  | revoke raw =>
      cases hscan : auth.rotateScan s now raw with
      | none =>
          refine ⟨fun rt => rt, [], ?_, fun rt h => h⟩
          simp [applyOp, auth.RevokeRefreshToken, hscan, List.map_id']
      | some tr =>
          by_cases hzero : tr.id = 0
          · refine ⟨fun rt => rt, [], ?_, fun rt h => h⟩
            simp [applyOp, auth.RevokeRefreshToken, hscan, hzero,
              List.map_id']
          · refine ⟨fun rt => if rt.id = tr.id
              then { rt with revokedAt := some now } else rt, [], ?_, ?_⟩
            · simp [applyOp, auth.RevokeRefreshToken, hscan, hzero,
                revokeById_refreshTokens]
            · intro rt h
              by_cases hid : rt.id = tr.id <;> simp [hid, h]

/-- Revocation is terminal: a revoked row at position i stays revoked at
position i after any operation. -/
theorem op_preserves_revoked :
    ∀ (cfg : Config) (op : Op) (s : ServiceState) (now i : Nat)
      (rt rt2 : models.RefreshToken),
      s.refreshTokens[i]? = some rt → rt.revokedAt.isSome = true →
      (applyOp cfg op s now).refreshTokens[i]? = some rt2 →
      rt2.revokedAt.isSome = true := by
  intro cfg op s now i rt rt2 h1 h2 h3
  obtain ⟨g, ins, hshape, hpres⟩ := applyOp_shape cfg op s now
  rw [hshape] at h3
  have hi : i < s.refreshTokens.length := by
    by_contra hge
    rw [List.getElem?_eq_none (by omega)] at h1
    cases h1
  rw [List.getElem?_append_left (by simpa using hi)] at h3
  rw [List.getElem?_map, h1] at h3
  cases h3
  exact hpres rt h2

/-- C1: a raw refresh-token value can be successfully rotated at most once:
after a successful rotation, presenting the same raw value again always
fails with the invalid-refresh-token error, because the matched record was
revoked and the candidate scan only considers unrevoked records; and no
operation ever returns a revoked record to a redeemable state. The side
conditions say that at most one stored hash matches the presented value and
that the freshly drawn successor token does not collide with it. -/
theorem rotation_at_most_once_and_revocation_terminal :
    (∀ (cfg : Config) (s : ServiceState) (raw : String) (now : Nat)
      (rnd : List Nat) (salt : Nat),
      (auth.RefreshAccessToken cfg s raw now rnd salt).1.isOk = true →
      (s.refreshTokens.filter
          (fun rt => jwt.CompareRefreshToken rt.tokenHash raw)).length ≤ 1 →
      jwt.CompareRefreshToken
          (jwt.HashRefreshToken (jwt.GenerateRefreshToken rnd) salt) raw =
        false →
      ∀ (now2 : Nat) (rnd2 : List Nat) (salt2 : Nat),
        (auth.RefreshAccessToken cfg
            ((auth.RefreshAccessToken cfg s raw now rnd salt).2) raw now2
            rnd2 salt2).1 = Except.error AuthError.invalidRefreshToken) ∧
    (∀ (cfg : Config) (op : Op) (s : ServiceState) (now i : Nat)
      (rt rt2 : models.RefreshToken),
      s.refreshTokens[i]? = some rt → rt.revokedAt.isSome = true →
      (applyOp cfg op s now).refreshTokens[i]? = some rt2 →
      rt2.revokedAt.isSome = true) :=
  ⟨rotate_second_fails, op_preserves_revoked⟩

/-- C1 witness: rotating the valid raw value succeeds on the concrete store,
and rotating it again on the resulting store yields the
invalid-refresh-token error; a revoked row survives a rotation attempt with
its revocation timestamp still set. -/
theorem rotation_at_most_once_witness :
    (auth.RefreshAccessToken cfgA
        ((auth.RefreshAccessToken cfgA stateA "rawA" 10 [1] 11).2) "rawA"
        20 [2] 12).1 = Except.error AuthError.invalidRefreshToken ∧
      ({ rowAlice with revokedAt := some 5 } :
        models.RefreshToken).revokedAt.isSome = true :=
  ⟨rotation_at_most_once_and_revocation_terminal.1 cfgA stateA "rawA" 10
      [1] 11 (by decide) (by decide) (by decide) 20 [2] 12,
    rotation_at_most_once_and_revocation_terminal.2 cfgA
      (Op.rotate "rawA" [3] 13)
      { users := [userAlice]
        refreshTokens := [{ rowAlice with revokedAt := some 5 }]
        nextUserId := 2, nextTokenId := 5 } 10 0
      { rowAlice with revokedAt := some 5 }
      { rowAlice with revokedAt := some 5 }
      (by decide) (by decide) (by decide)⟩

/-- Decoding a base64url character recovers its 6-bit value. -/
theorem sextetIndex_sextetChar :
    ∀ (m : Fin 64), sextetIndex (sextetChar m.val) = m.val := by decide

/-- The base64url alphabet map is injective on 6-bit values. -/
theorem sextetChar_inj (a b : Nat) (ha : a < 64) (hb : b < 64)
    (h : sextetChar a = sextetChar b) : a = b := by
  have h1 := sextetIndex_sextetChar ⟨a, ha⟩
  have h2 := sextetIndex_sextetChar ⟨b, hb⟩
  simp only at h1 h2
  rw [← h1, ← h2, h]

/-- Every 6-bit group of a byte list is below 64. -/
theorem encodeGroups_lt :
    ∀ (l : List Nat), (∀ x ∈ l, x < 256) → ∀ sx ∈ encodeGroups l, sx < 64
  | [], _, sx, hsx => by simp [encodeGroups] at hsx
  | [a], h, sx, hsx => by
      have ha : a < 256 := h a (by simp)
      simp [encodeGroups] at hsx
      rcases hsx with h1 | h1 <;> omega
  | [a, b], h, sx, hsx => by
      have ha : a < 256 := h a (by simp)
      have hb : b < 256 := h b (by simp)
      simp [encodeGroups] at hsx
      rcases hsx with h1 | h1 | h1 <;> omega
  | a :: b :: c :: d :: rest, h, sx, hsx => by
      have ha : a < 256 := h a (by simp)
      have hb : b < 256 := h b (by simp)
      have hc : c < 256 := h c (by simp)
      simp only [encodeGroups, List.mem_cons, List.mem_append] at hsx
      rcases hsx with h1 | h1 | h1 | h1 | h1
      · omega
      · omega
      · omega
      · omega
      · exact encodeGroups_lt (d :: rest)
          (fun x hx => h x (by simp at hx; rcases hx with hx | hx <;>
            simp [hx])) sx h1
  | [a, b, c], h, sx, hsx => by
      have ha : a < 256 := h a (by simp)
      have hb : b < 256 := h b (by simp)
      have hc : c < 256 := h c (by simp)
      simp [encodeGroups] at hsx
      rcases hsx with h1 | h1 | h1 | h1 <;> omega

/-- The 6-bit grouping is lossless on byte lists. -/
theorem decodeGroups_encodeGroups :
    ∀ (l : List Nat), (∀ x ∈ l, x < 256) →
      decodeGroups (encodeGroups l) = l
  | [], _ => rfl
  | [a], h => by
      have ha : a < 256 := h a (by simp)
      simp [encodeGroups, decodeGroups]
      omega
  | [a, b], h => by
      have ha : a < 256 := h a (by simp)
      have hb : b < 256 := h b (by simp)
      simp [encodeGroups, decodeGroups]
      constructor <;> omega
  | a :: b :: c :: rest, h => by
      have ha : a < 256 := h a (by simp)
      have hb : b < 256 := h b (by simp)
      have hc : c < 256 := h c (by simp)
      have ih := decodeGroups_encodeGroups rest
        (fun x hx => h x (by simp [hx]))
      simp [encodeGroups, decodeGroups, ih]
      refine ⟨?_, ?_, ?_⟩ <;> omega

/-- Mapping through the alphabet is injective on lists of 6-bit values. -/
theorem map_sextetChar_inj :
    ∀ (l1 l2 : List Nat), (∀ x ∈ l1, x < 64) → (∀ x ∈ l2, x < 64) →
      l1.map sextetChar = l2.map sextetChar → l1 = l2
  | [], [], _, _, _ => rfl
  | [], _ :: _, _, _, h => by simp at h
  | _ :: _, [], _, _, h => by simp at h
  | a :: l1, b :: l2, h1, h2, h => by
      simp only [List.map_cons, List.cons.injEq] at h
      have ha : a < 64 := h1 a (by simp)
      have hb : b < 64 := h2 b (by simp)
      have hab : a = b := sextetChar_inj a b ha hb h.1
      have htl := map_sextetChar_inj l1 l2
        (fun x hx => h1 x (by simp [hx]))
        (fun x hx => h2 x (by simp [hx])) h.2
      rw [hab, htl]

/-- A generated refresh token determines the 32 random bytes it came from:
the encoding is injective, so the tokens carry the full 256 bits of
entropy drawn from the random source. -/
theorem generateRefreshToken_injective :
    ∀ (r1 r2 : List Nat), r1.length = 32 → r2.length = 32 →
      (∀ x ∈ r1, x < 256) → (∀ x ∈ r2, x < 256) →
      jwt.GenerateRefreshToken r1 = jwt.GenerateRefreshToken r2 →
      r1 = r2 := by
  intro r1 r2 hl1 hl2 hb1 hb2 h
  unfold jwt.GenerateRefreshToken base64urlEncode at h
  rw [hl1, hl2] at h
  have hdata : (encodeGroups r1).map sextetChar ++
      List.replicate (padLen 32) '=' =
      (encodeGroups r2).map sextetChar ++
        List.replicate (padLen 32) '=' := by
    have hd := congrArg String.data h
    simpa using hd
  have hmap : (encodeGroups r1).map sextetChar =
      (encodeGroups r2).map sextetChar :=
    List.append_cancel_right hdata
  have henc := map_sextetChar_inj _ _ (encodeGroups_lt r1 hb1)
    (encodeGroups_lt r2 hb2) hmap
  calc r1 = decodeGroups (encodeGroups r1) :=
        (decodeGroups_encodeGroups r1 hb1).symm
    _ = decodeGroups (encodeGroups r2) := by rw [henc]
    _ = r2 := decodeGroups_encodeGroups r2 hb2

/-- C8: a generated refresh token is the base64url image of the 32 random
bytes and the encoding is injective, so each token carries 256 bits of
entropy; GenerateTokens returns the raw value to the caller exactly once
while the inserted row stores only the salted bcrypt hash; and the scan used
by rotation and revocation matches a record exactly through the bcrypt
comparison of its stored hash with the presented value. -/
theorem refresh_token_entropy_and_hash_at_rest :
    (∀ (r1 r2 : List Nat), r1.length = 32 → r2.length = 32 →
      (∀ x ∈ r1, x < 256) → (∀ x ∈ r2, x < 256) →
      jwt.GenerateRefreshToken r1 = jwt.GenerateRefreshToken r2 →
      r1 = r2) ∧
    (∀ (cfg : Config) (s : ServiceState) (u : models.User) (now : Nat)
      (rnd : List Nat) (salt : Nat),
      (auth.GenerateTokens cfg s u now rnd salt).1.refreshToken =
          jwt.GenerateRefreshToken rnd ∧
        (auth.GenerateTokens cfg s u now rnd salt).2.refreshTokens =
          s.refreshTokens ++
            [{ id := s.nextTokenId, userId := u.id
               tokenHash := jwt.HashRefreshToken
                 (jwt.GenerateRefreshToken rnd) salt
               expiresAt := now + cfg.refreshTokenExpiry, createdAt := now
               revokedAt := none }]) ∧
    (∀ (s : ServiceState) (now : Nat) (raw : String)
      (tr : models.RefreshToken),
      auth.rotateScan s now raw = some tr →
      jwt.CompareRefreshToken tr.tokenHash raw = true) ∧
    (∀ (s : ServiceState) (now : Nat) (raw : String),
      (∀ tr ∈ s.refreshTokens,
        jwt.CompareRefreshToken tr.tokenHash raw = false) →
      auth.rotateScan s now raw = none) := by
  refine ⟨generateRefreshToken_injective, ?_, ?_, ?_⟩
  · intro cfg s u now rnd salt
    exact ⟨rfl, rfl⟩
  · intro s now raw tr hscan
    have h := List.find?_some hscan
    simpa using h
  · intro s now raw h
    unfold auth.rotateScan
    apply List.find?_eq_none.mpr
    intro x hx
    have hxm : x ∈ s.refreshTokens := (List.mem_filter.mp hx).1
    simp [h x hxm]

/-- C8 witness: the encoding injectivity, storage shape, and matching
conjuncts instantiated on concrete inputs. -/
theorem refresh_token_entropy_witness :
    List.replicate 32 0 = List.replicate 32 (0 : Nat) ∧
      (auth.GenerateTokens cfgA stateA userAlice 0 [1] 2).1.refreshToken =
        jwt.GenerateRefreshToken [1] ∧
      jwt.CompareRefreshToken rowAlice.tokenHash "rawA" = true ∧
      auth.rotateScan stateA 10 "zzz" = none :=
  ⟨refresh_token_entropy_and_hash_at_rest.1 (List.replicate 32 0)
      (List.replicate 32 0) (by decide) (by decide) (by decide) (by decide)
      rfl,
    (refresh_token_entropy_and_hash_at_rest.2.1 cfgA stateA userAlice 0
      [1] 2).1,
    refresh_token_entropy_and_hash_at_rest.2.2.1 stateA 10 "rawA" rowAlice
      (by decide),
    refresh_token_entropy_and_hash_at_rest.2.2.2 stateA 10 "zzz"
      (by decide)⟩

end AuthService
